import Mathlib

/-! A verification development for `optional.h`

`Optional<T>` is a fixed inline storage slot (`data_`) together with an
occupancy flag (`is_initialized_`).  The embedding below keeps both fields,
takes the contained type `T` and its special member functions as parameters,
and makes every call of one of `T`'s member functions visible as an event.
-/

namespace CppOptional

/-! ## Exceptions, outcomes and the trace of `T`'s member functions -/

/-- What a call can throw: `BadOptionalAccess` (the class of `optional.h`, lines
5-12) or an exception `e` raised by one of `T`'s own member functions. -/
inductive Exn (E : Type) where
  | BadOptionalAccess : Exn E
  | fromT (e : E) : Exn E
  deriving DecidableEq, Repr

/-- How a call ends: it returns `a`, it throws, it calls `std::terminate` (an
exception leaving a `noexcept` function), or its behaviour is undefined (the
storage is read as a `T` while no `T` lives there). -/
inductive Outcome (E α : Type) where
  | ret (a : α) : Outcome E α
  | throw (e : Exn E) : Outcome E α
  | terminate : Outcome E α
  | undefined : Outcome E α
  deriving DecidableEq, Repr

/-- The member functions of `T` that `optional.h` invokes. -/
inductive TOp where
  | construct
  | copyConstruct
  | moveConstruct
  | copyAssign
  | moveAssign
  | destroy
  deriving DecidableEq, Repr

/-- One invocation of a member function of `T` on the storage of the slot that
executes it; `threw` records that the invocation ended with an exception. -/
structure TEvent where
  op : TOp
  threw : Bool
  deriving DecidableEq, Repr

/-- The behaviour of the template parameter `T`: `A` stands for the argument
packs `T` can be constructed from and `E` for what `T` throws.  A move also
yields the state it leaves its source in; an assignment yields the state of its
target, also when it throws.  `T`'s destructor does not throw. -/
structure TOps (T E A : Type) where
  /-- The call `T(args...)`. -/
  construct : A → Except E T
  /-- The call `T(const T&)`. -/
  copyConstruct : T → Except E T
  /-- The call `T(T&&)`: the new object or the exception, and the source afterwards. -/
  moveConstruct : T → Except E T × T
  /-- The call `target = source` by copy: the target afterwards and what was thrown. -/
  copyAssign : T → T → T × Option E
  /-- The call `target = std::move(source)`: target and source afterwards and
  what was thrown. -/
  moveAssign : T → T → T × T × Option E

/-- The result of running a member function: the state it leaves behind (also
when it throws), the calls of `T`'s member functions it made, in order, and
how it ended. -/
structure Run (σ E α : Type) where
  state : σ
  log : List TEvent
  out : Outcome E α

/-- The number of events of `log` that invoke the member function `op`. -/
def invocations (op : TOp) (log : List TEvent) : Nat :=
  (log.filter (fun ev => decide (ev.op = op))).length

/-! ## The class `Optional<T>` -/

/-- The data members of `Optional<T>` (lines 161-163).  `data_` is the raw buffer
`alignas(T) char data_[sizeof(T)]`: `some v` when a live `T` with value `v`
occupies it, `none` when no `T` lives in it. -/
structure Optional (T : Type) where
  data_ : Option T
  is_initialized_ : Bool
  deriving DecidableEq, Repr

namespace Optional

variable {T E A : Type}

/-- A slot is well formed when the flag tells the truth about the buffer. -/
def WF (self : Optional T) : Prop :=
  self.is_initialized_ = self.data_.isSome

instance (self : Optional T) : Decidable self.WF := by
  unfold WF
  exact inferInstance

/-- `Optional() = default;` (line 17): nothing is constructed and the default
member initializer sets `is_initialized_ = false`. -/
def ctor_default : Optional T :=
  { data_ := none, is_initialized_ := false }

/-- `Optional(const T& value)` (lines 19-21). -/
def ctor_copy_value (ops : TOps T E A) (value : T) : Run Unit E (Optional T) :=
  match ops.copyConstruct value with
  | .ok w =>
    { state := (), log := [⟨.copyConstruct, false⟩],
      out := .ret { data_ := some w, is_initialized_ := true } }
  | .error e =>
    { state := (), log := [⟨.copyConstruct, true⟩], out := .throw (.fromT e) }

/-- `Optional(T&& value)` (lines 23-25); the state is the caller's `value`
after the move. -/
def ctor_move_value (ops : TOps T E A) (value : T) : Run T E (Optional T) :=
  match ops.moveConstruct value with
  | (.ok w, value') =>
    { state := value', log := [⟨.moveConstruct, false⟩],
      out := .ret { data_ := some w, is_initialized_ := true } }
  | (.error e, value') =>
    { state := value', log := [⟨.moveConstruct, true⟩], out := .throw (.fromT e) }

/-- `Optional(const Optional& other)` (lines 27-31). -/
def ctor_copy (ops : TOps T E A) (other : Optional T) : Run Unit E (Optional T) :=
  if other.is_initialized_ then
    match other.data_ with
    | some src =>
      match ops.copyConstruct src with
      | .ok w =>
        { state := (), log := [⟨.copyConstruct, false⟩],
          out := .ret { data_ := some w, is_initialized_ := other.is_initialized_ } }
      | .error e =>
        { state := (), log := [⟨.copyConstruct, true⟩], out := .throw (.fromT e) }
    | none => { state := (), log := [], out := .undefined }
  else
    { state := (), log := [],
      out := .ret { data_ := none, is_initialized_ := other.is_initialized_ } }

/-- `Optional(Optional&& other) noexcept` (lines 33-38); the state is `other`
after the call.  An exception of `T`'s move constructor cannot leave the
`noexcept` function: the program terminates. -/
def ctor_move (ops : TOps T E A) (other : Optional T) :
    Run (Optional T) E (Optional T) :=
  if other.is_initialized_ then
    match other.data_ with
    | some src =>
      match ops.moveConstruct src with
      | (.ok w, src') =>
        { state := { other with data_ := some src' }, log := [⟨.moveConstruct, false⟩],
          out := .ret { data_ := some w, is_initialized_ := other.is_initialized_ } }
      | (.error _, src') =>
        { state := { other with data_ := some src' }, log := [⟨.moveConstruct, true⟩],
          out := .terminate }
    | none => { state := other, log := [], out := .undefined }
  else
    { state := other, log := [],
      out := .ret { data_ := none, is_initialized_ := other.is_initialized_ } }

/-- `bool HasValue() const` (lines 44-46). -/
def HasValue (self : Optional T) : Bool :=
  self.is_initialized_

/-- `T& operator*() &` (lines 149-151): the buffer read as a `T`. -/
def deref (self : Optional T) : Outcome E T :=
  match self.data_ with
  | some v => .ret v
  | none => .undefined

/-- `const T& operator*() const&` (lines 153-155). -/
def deref_const (self : Optional T) : Outcome E T :=
  match self.data_ with
  | some v => .ret v
  | none => .undefined

/-- `T&& operator*() &&` (lines 157-159): `std::move` is a cast, nothing is
moved by the call itself. -/
def deref_rvalue (self : Optional T) : Outcome E T :=
  match self.data_ with
  | some v => .ret v
  | none => .undefined

/-- `T* operator->()` (lines 83-85): the pointer is given by the object it
points to. -/
def arrow (self : Optional T) : Outcome E T :=
  match self.data_ with
  | some v => .ret v
  | none => .undefined

/-- `const T* operator->() const` (lines 87-89). -/
def arrow_const (self : Optional T) : Outcome E T :=
  match self.data_ with
  | some v => .ret v
  | none => .undefined

/-- `T& Value() &` (lines 48-53). -/
def Value (self : Optional T) : Outcome E T :=
  if !self.is_initialized_ then .throw .BadOptionalAccess
  else self.deref

/-- `const T& Value() const&` (lines 55-60). -/
def Value_const (self : Optional T) : Outcome E T :=
  if !self.is_initialized_ then .throw .BadOptionalAccess
  else self.deref_const

/-- `T&& Value() &&` (lines 62-67). -/
def Value_rvalue (self : Optional T) : Outcome E T :=
  if !self.is_initialized_ then .throw .BadOptionalAccess
  else self.deref

/-- `void Reset()` (lines 69-74). -/
def Reset (self : Optional T) : Run (Optional T) E Unit :=
  if self.is_initialized_ then
    match self.data_ with
    | some _ =>
      { state := { data_ := none, is_initialized_ := false },
        log := [⟨.destroy, false⟩], out := .ret () }
    | none => { state := self, log := [], out := .undefined }
  else
    { state := self, log := [], out := .ret () }

/-- `~Optional()` (lines 40-42). -/
def dtor (self : Optional T) : Run (Optional T) E Unit :=
  self.Reset

/-- `void Emplace(Args&&... args)` (lines 76-81).  A placement `new` whose
constructor throws leaves no object in the buffer. -/
def Emplace (ops : TOps T E A) (self : Optional T) (args : A) :
    Run (Optional T) E Unit :=
  let r : Run (Optional T) E Unit := self.Reset
  match r.out with
  | .ret () =>
    match ops.construct args with
    | .ok w =>
      { state := { data_ := some w, is_initialized_ := true },
        log := r.log ++ [⟨.construct, false⟩], out := .ret () }
    | .error e =>
      { state := { r.state with data_ := none },
        log := r.log ++ [⟨.construct, true⟩], out := .throw (.fromT e) }
  | o => { state := r.state, log := r.log, out := o }

/-- `Optional& operator=(const T& value)` (lines 91-100). -/
def assign_copy_value (ops : TOps T E A) (self : Optional T) (value : T) :
    Run (Optional T) E Unit :=
  if self.is_initialized_ then
    match self.data_ with
    | some cur =>
      match ops.copyAssign cur value with
      | (cur', none) =>
        { state := { self with data_ := some cur' },
          log := [⟨.copyAssign, false⟩], out := .ret () }
      | (cur', some e) =>
        { state := { self with data_ := some cur' },
          log := [⟨.copyAssign, true⟩], out := .throw (.fromT e) }
    | none => { state := self, log := [], out := .undefined }
  else
    match ops.copyConstruct value with
    | .ok w =>
      { state := { data_ := some w, is_initialized_ := true },
        log := [⟨.copyConstruct, false⟩], out := .ret () }
    | .error e =>
      { state := { self with data_ := none },
        log := [⟨.copyConstruct, true⟩], out := .throw (.fromT e) }

/-- `Optional& operator=(T&& value)` (lines 102-111); the state is the slot and
the caller's `value` after the call. -/
def assign_move_value (ops : TOps T E A) (self : Optional T) (value : T) :
    Run (Optional T × T) E Unit :=
  if self.is_initialized_ then
    match self.data_ with
    | some cur =>
      match ops.moveAssign cur value with
      | (cur', value', none) =>
        { state := ({ self with data_ := some cur' }, value'),
          log := [⟨.moveAssign, false⟩], out := .ret () }
      | (cur', value', some e) =>
        { state := ({ self with data_ := some cur' }, value'),
          log := [⟨.moveAssign, true⟩], out := .throw (.fromT e) }
    | none => { state := (self, value), log := [], out := .undefined }
  else
    match ops.moveConstruct value with
    | (.ok w, value') =>
      { state := ({ data_ := some w, is_initialized_ := true }, value'),
        log := [⟨.moveConstruct, false⟩], out := .ret () }
    | (.error e, value') =>
      { state := ({ self with data_ := none }, value'),
        log := [⟨.moveConstruct, true⟩], out := .throw (.fromT e) }

/-- The slot's side of `operator=(T&& value)`: the same call, with the caller's
`value` left out of the state. -/
def assign_move_value_self (ops : TOps T E A) (self : Optional T) (value : T) :
    Run (Optional T) E Unit :=
  { state := (self.assign_move_value ops value).state.1,
    log := (self.assign_move_value ops value).log,
    out := (self.assign_move_value ops value).out }

end Optional

/-! ## Slots in memory

The two assignments from a slot compare addresses (`this != &rhs`), so they
are run on a memory that maps addresses to slots. -/

/-- A memory of slots, by address. -/
abbrev Mem (T : Type) := Nat → Optional T

namespace Mem

variable {T E A : Type}

/-- Run a member function of the slot at address `this`. -/
def call {α : Type} (m : Mem T) (this : Nat)
    (f : Optional T → Run (Optional T) E α) : Run (Mem T) E α :=
  let r := f (m this)
  { state := Function.update m this r.state, log := r.log, out := r.out }

/-- Place at address `this` the slot made by a constructor call, when the
constructor returns. -/
def construct_at {σ : Type} (m : Mem T) (this : Nat)
    (r : Run σ E (Optional T)) : Run (Mem T) E Unit :=
  match r.out with
  | .ret s => { state := Function.update m this s, log := r.log, out := .ret () }
  | .throw e => { state := m, log := r.log, out := .throw e }
  | .terminate => { state := m, log := r.log, out := .terminate }
  | .undefined => { state := m, log := r.log, out := .undefined }

/-- `Optional& operator=(const Optional& rhs)` (lines 113-129), called on the
slot at address `this` with the slot at address `rhs`. -/
def assign_copy (ops : TOps T E A) (m : Mem T) (this rhs : Nat) : Run (Mem T) E Unit :=
  if this ≠ rhs then
    if (m rhs).is_initialized_ then
      if (m this).is_initialized_ then
        match (m this).data_, (m rhs).data_ with
        | some cur, some src =>
          match ops.copyAssign cur src with
          | (cur', none) =>
            { state := Function.update m this { m this with data_ := some cur' },
              log := [⟨.copyAssign, false⟩], out := .ret () }
          | (cur', some e) =>
            { state := Function.update m this { m this with data_ := some cur' },
              log := [⟨.copyAssign, true⟩], out := .throw (.fromT e) }
        | _, _ => { state := m, log := [], out := .undefined }
      else
        match (m rhs).data_ with
        | some src =>
          match ops.copyConstruct src with
          | .ok w =>
            { state := Function.update m this { data_ := some w, is_initialized_ := true },
              log := [⟨.copyConstruct, false⟩], out := .ret () }
          | .error e =>
            { state := Function.update m this { m this with data_ := none },
              log := [⟨.copyConstruct, true⟩], out := .throw (.fromT e) }
        | none => { state := m, log := [], out := .undefined }
    else
      let r : Run (Optional T) E Unit := (m this).Reset
      { state := Function.update m this r.state, log := r.log, out := r.out }
  else
    { state := m, log := [], out := .ret () }

/-- `Optional& operator=(Optional&& rhs) noexcept` (lines 131-147), called on
the slot at address `this` with the slot at address `rhs`.  An exception of
`T`'s move cannot leave the `noexcept` function: the program terminates. -/
def assign_move (ops : TOps T E A) (m : Mem T) (this rhs : Nat) : Run (Mem T) E Unit :=
  if this ≠ rhs then
    if (m rhs).is_initialized_ then
      if (m this).is_initialized_ then
        match (m this).data_, (m rhs).data_ with
        | some cur, some src =>
          match ops.moveAssign cur src with
          | (cur', src', none) =>
            { state := Function.update
                (Function.update m rhs { m rhs with data_ := some src' })
                this { m this with data_ := some cur' },
              log := [⟨.moveAssign, false⟩], out := .ret () }
          | (cur', src', some _) =>
            { state := Function.update
                (Function.update m rhs { m rhs with data_ := some src' })
                this { m this with data_ := some cur' },
              log := [⟨.moveAssign, true⟩], out := .terminate }
        | _, _ => { state := m, log := [], out := .undefined }
      else
        match (m rhs).data_ with
        | some src =>
          match ops.moveConstruct src with
          | (.ok w, src') =>
            { state := Function.update
                (Function.update m rhs { m rhs with data_ := some src' })
                this { data_ := some w, is_initialized_ := true },
              log := [⟨.moveConstruct, false⟩], out := .ret () }
          | (.error _, src') =>
            { state := Function.update
                (Function.update m rhs { m rhs with data_ := some src' })
                this { m this with data_ := none },
              log := [⟨.moveConstruct, true⟩], out := .terminate }
        | none => { state := m, log := [], out := .undefined }
    else
      let r : Run (Optional T) E Unit := (m this).Reset
      { state := Function.update m this r.state, log := r.log, out := r.out }
  else
    { state := m, log := [], out := .ret () }

end Mem

/-! ## The instance `T = int` -/

/-- The member functions of `int`: construction from an `int`, copies and
moves that keep the value, nothing throws. -/
def intOps : TOps Int Empty Int where
  construct := fun a => .ok a
  copyConstruct := fun v => .ok v
  moveConstruct := fun v => (.ok v, v)
  copyAssign := fun _ v => (v, none)
  moveAssign := fun _ v => (v, v, none)

/-! ## The life of one slot

A slot is made by one of the constructors and then used, call after call, as
the target of its member functions or as the source of a copy or a move.  The
trace of a call lists the member functions of `T` run on the storage of this
slot. -/

/-- The outcome of a call with the returned value dropped. -/
def Outcome.void {E α : Type} : Outcome E α → Outcome E Unit
  | .ret _ => .ret ()
  | .throw e => .throw e
  | .terminate => .terminate
  | .undefined => .undefined

/-- An event that brings a `T` to life: a constructor call that returned. -/
def TEvent.constructs (ev : TEvent) : Bool :=
  !ev.threw && (decide (ev.op = .construct) || decide (ev.op = .copyConstruct)
    || decide (ev.op = .moveConstruct))

/-- The number of `T` objects a trace constructs. -/
def constructed (log : List TEvent) : Nat :=
  (log.filter TEvent.constructs).length

/-- The number of `T` objects a trace destroys. -/
def destroyed (log : List TEvent) : Nat :=
  invocations .destroy log

/-- The number of live `T` objects the flag of a slot stands for. -/
def Optional.count {T : Type} (self : Optional T) : Nat :=
  if self.is_initialized_ then 1 else 0

/-- A memory with the slot `a` at address 0 and the slot `b` at every other
address. -/
def Mem.pair {T : Type} (a b : Optional T) : Mem T :=
  fun k => if k = 0 then a else b

/-- The constructors of `Optional<T>` (lines 17-38) with their arguments. -/
inductive Ctor (T : Type) where
  | default
  | copy_value (value : T)
  | move_value (value : T)
  | copy (other : Optional T)
  | move (other : Optional T)

/-- Run a constructor: the new slot and the member functions of `T` run on
its storage. -/
def Ctor.make {T E A : Type} (ops : TOps T E A) : Ctor T → Run Unit E (Optional T)
  | .default => { state := (), log := [], out := .ret Optional.ctor_default }
  | .copy_value value => Optional.ctor_copy_value ops value
  | .move_value value =>
    { state := (), log := (Optional.ctor_move_value ops value).log,
      out := (Optional.ctor_move_value ops value).out }
  | .copy other => Optional.ctor_copy ops other
  | .move other =>
    { state := (), log := (Optional.ctor_move ops other).log,
      out := (Optional.ctor_move ops other).out }

/-- The uses of a constructed slot: a call of one of its member functions, or
its use as the source `other` / `rhs` of a construction or of an assignment to
a slot `target`. -/
inductive Call (T A : Type) where
  | HasValue
  | Value
  | Reset
  | Emplace (args : A)
  | assign_copy_value (value : T)
  | assign_move_value (value : T)
  | assign_copy (rhs : Optional T)
  | assign_move (rhs : Optional T)
  | assign_copy_self
  | assign_move_self
  | source_of_ctor_copy
  | source_of_ctor_move
  | source_of_assign_copy (target : Optional T)
  | source_of_assign_move (target : Optional T)

/-- One use of the slot `self`: the slot afterwards, the member functions of
`T` run on its storage, and how the call ended.  As a source the slot has no
member function of `T` run on its own storage. -/
def Call.step {T E A : Type} (ops : TOps T E A) (self : Optional T) :
    Call T A → Run (Optional T) E Unit
  | .HasValue =>
    { state := self, log := [], out := (Outcome.ret self.HasValue : Outcome E Bool).void }
  | .Value => { state := self, log := [], out := (self.Value : Outcome E T).void }
  | .Reset => self.Reset
  | .Emplace args => self.Emplace ops args
  | .assign_copy_value value => self.assign_copy_value ops value
  | .assign_move_value value => self.assign_move_value_self ops value
  | .assign_copy rhs =>
    { state := (Mem.assign_copy ops (Mem.pair self rhs) 0 1).state 0,
      log := (Mem.assign_copy ops (Mem.pair self rhs) 0 1).log,
      out := (Mem.assign_copy ops (Mem.pair self rhs) 0 1).out }
  | .assign_move rhs =>
    { state := (Mem.assign_move ops (Mem.pair self rhs) 0 1).state 0,
      log := (Mem.assign_move ops (Mem.pair self rhs) 0 1).log,
      out := (Mem.assign_move ops (Mem.pair self rhs) 0 1).out }
  | .assign_copy_self =>
    { state := (Mem.assign_copy ops (Mem.pair self self) 0 0).state 0,
      log := (Mem.assign_copy ops (Mem.pair self self) 0 0).log,
      out := (Mem.assign_copy ops (Mem.pair self self) 0 0).out }
  | .assign_move_self =>
    { state := (Mem.assign_move ops (Mem.pair self self) 0 0).state 0,
      log := (Mem.assign_move ops (Mem.pair self self) 0 0).log,
      out := (Mem.assign_move ops (Mem.pair self self) 0 0).out }
  | .source_of_ctor_copy =>
    { state := self, log := [], out := (Optional.ctor_copy ops self).out.void }
  | .source_of_ctor_move =>
    { state := (Optional.ctor_move ops self).state, log := [],
      out := (Optional.ctor_move ops self).out.void }
  | .source_of_assign_copy target =>
    { state := (Mem.assign_copy ops (Mem.pair target self) 0 1).state 1, log := [],
      out := (Mem.assign_copy ops (Mem.pair target self) 0 1).out }
  | .source_of_assign_move target =>
    { state := (Mem.assign_move ops (Mem.pair target self) 0 1).state 1, log := [],
      out := (Mem.assign_move ops (Mem.pair target self) 0 1).out }

/-- A sequence of uses of the slot `self`, with the trace on its storage.  An
exception is caught by the caller and the next call follows; the sequence ends
where the program terminates or its behaviour is undefined. -/
def run {T E A : Type} (ops : TOps T E A) (self : Optional T) :
    List (Call T A) → Run (Optional T) E Unit
  | [] => { state := self, log := [], out := .ret () }
  | c :: cs =>
    match (c.step ops self).out with
    | .terminate => c.step ops self
    | .undefined => c.step ops self
    | _ =>
      { state := (run ops (c.step ops self).state cs).state,
        log := (c.step ops self).log ++ (run ops (c.step ops self).state cs).log,
        out := (run ops (c.step ops self).state cs).out }

/-! ## Two further instances of `T` -/

/-- A `T` whose every constructor and assignment throws; an assignment leaves
its target and its source as they were. -/
def failingOps : TOps Int Unit Int where
  construct := fun _ => .error ()
  copyConstruct := fun _ => .error ()
  moveConstruct := fun v => (.error (), v)
  copyAssign := fun cur _ => (cur, some ())
  moveAssign := fun cur v => (cur, v, some ())

/-- A `T` that records how often it was copy-constructed: the copy of `v` made
by its copy constructor is `v + 1`, while its assignments and its move
constructor yield `v` itself. -/
def generationOps : TOps Int Empty Int where
  construct := fun a => .ok a
  copyConstruct := fun v => .ok (v + 1)
  moveConstruct := fun v => (.ok v, v)
  copyAssign := fun _ v => (v, none)
  moveAssign := fun _ v => (v, v, none)

/-! ## Helper lemmas -/

namespace Optional

variable {T E A : Type}

/-- A well-formed slot whose flag is set holds a value. -/
theorem WF.data_of_initialized {s : Optional T} (h : s.WF)
    (hi : s.is_initialized_ = true) : ∃ v, s.data_ = some v := by
  unfold WF at h
  rw [hi] at h
  exact Option.isSome_iff_exists.mp h.symm

/-- A well-formed slot whose flag is clear holds nothing. -/
theorem WF.data_of_not_initialized {s : Optional T} (h : s.WF)
    (hi : s.is_initialized_ = false) : s.data_ = none := by
  unfold WF at h
  rw [hi] at h
  cases hd : s.data_ with
  | none => rfl
  | some v => rw [hd] at h; simp at h

/-- A well-formed slot whose flag is set is `{some v, true}` for some `v`. -/
theorem WF.eq_of_initialized {s : Optional T} (h : s.WF)
    (hi : s.is_initialized_ = true) :
    ∃ v, s = { data_ := some v, is_initialized_ := true } := by
  obtain ⟨v, hv⟩ := h.data_of_initialized hi
  refine ⟨v, ?_⟩
  cases s with
  | mk d i =>
    simp only at hi hv
    rw [hi, hv]

/-- A well-formed slot whose flag is clear is the default-constructed slot. -/
theorem WF.eq_of_not_initialized {s : Optional T} (h : s.WF)
    (hi : s.is_initialized_ = false) : s = ctor_default := by
  have hd := h.data_of_not_initialized hi
  cases s with
  | mk d i =>
    simp only at hi hd
    rw [hi, hd]
    rfl

/-- On a well-formed slot `Reset` returns, leaves the default-constructed
state, and destroys the contained value when there is one. -/
theorem Reset_of_WF {s : Optional T} (h : s.WF) :
    (s.Reset : Run (Optional T) E Unit).out = .ret () ∧
    (s.Reset : Run (Optional T) E Unit).state = ctor_default ∧
    (s.Reset : Run (Optional T) E Unit).log
      = if s.is_initialized_ then [⟨.destroy, false⟩] else [] := by
  cases hi : s.is_initialized_ with
  | true =>
    obtain ⟨v, hv⟩ := h.data_of_initialized hi
    simp [Reset, hi, hv, ctor_default]
  | false =>
    have hd := h.data_of_not_initialized hi
    obtain ⟨d, i⟩ := s
    simp only at hi hd
    subst hi hd
    simp [Reset, ctor_default]

/-- On a well-formed slot `Emplace` destroys the old value when there is one,
then runs `T`'s constructor: the slot ends up holding the new object, or
empty when the constructor throws. -/
theorem Emplace_of_WF {s : Optional T} (h : s.WF) (ops : TOps T E A) (args : A) :
    s.Emplace ops args =
      match ops.construct args with
      | .ok w =>
        { state := { data_ := some w, is_initialized_ := true },
          log := (if s.is_initialized_ then [⟨.destroy, false⟩] else [])
            ++ [⟨.construct, false⟩],
          out := .ret () }
      | .error e =>
        { state := ctor_default,
          log := (if s.is_initialized_ then [⟨.destroy, false⟩] else [])
            ++ [⟨.construct, true⟩],
          out := .throw (.fromT e) } := by
  obtain ⟨ho, hs, hl⟩ := @Reset_of_WF T E s h
  unfold Emplace
  simp only [ho, hs, hl]
  cases ops.construct args <;> rfl

end Optional

/-! ### The balance of constructions and destructions -/

/-- Constructions add up over the concatenation of traces. -/
theorem constructed_append (l₁ l₂ : List TEvent) :
    constructed (l₁ ++ l₂) = constructed l₁ + constructed l₂ := by
  simp [constructed]

/-- Destructions add up over the concatenation of traces. -/
theorem destroyed_append (l₁ l₂ : List TEvent) :
    destroyed (l₁ ++ l₂) = destroyed l₁ + destroyed l₂ := by
  simp [destroyed, invocations]

/-- A constructor that returns makes a well-formed slot, and the trace on its
storage constructs one `T` when the slot is occupied and none otherwise. -/
theorem Ctor.make_balance {T E A : Type} (ops : TOps T E A) (c : Ctor T) (s : Optional T)
    (h : (c.make ops).out = .ret s) :
    s.WF ∧ constructed (c.make ops).log = destroyed (c.make ops).log + s.count := by
  cases c with
  | default =>
    simp only [Ctor.make, Outcome.ret.injEq] at h
    subst h
    simp [Ctor.make, Optional.WF, Optional.ctor_default, Optional.count, constructed, destroyed,
      invocations]
  | copy_value v =>
    simp only [Ctor.make, Optional.ctor_copy_value] at h ⊢
    split at h <;> simp at h
    subst h
    simp [Optional.WF, Optional.count, constructed, destroyed, invocations, TEvent.constructs]
  | move_value v =>
    simp only [Ctor.make, Optional.ctor_move_value] at h ⊢
    split at h <;> simp at h
    subst h
    simp [Optional.WF, Optional.count, constructed, destroyed, invocations, TEvent.constructs]
  | copy other =>
    simp only [Ctor.make, Optional.ctor_copy] at h ⊢
    split at h
    · split at h
      · split at h <;> simp at h
        subst h
        simp_all [Optional.WF, Optional.count, constructed, destroyed, invocations,
          TEvent.constructs]
      · simp at h
    · simp at h
      subst h
      simp_all [Optional.WF, Optional.count, constructed, destroyed, invocations,
        TEvent.constructs]
  | move other =>
    simp only [Ctor.make, Optional.ctor_move] at h ⊢
    split at h
    · split at h
      · split at h <;> simp at h
        subst h
        simp_all [Optional.WF, Optional.count, constructed, destroyed, invocations,
          TEvent.constructs]
      · simp at h
    · simp at h
      subst h
      simp_all [Optional.WF, Optional.count, constructed, destroyed, invocations,
        TEvent.constructs]

namespace Optional

variable {T E A : Type}

/-- `Reset` keeps the slot well formed and the balance of its storage. -/
theorem Reset_balance {s : Optional T} (h : s.WF) :
    (s.Reset : Run (Optional T) E Unit).state.WF ∧
    constructed (s.Reset : Run (Optional T) E Unit).log + s.count
      = destroyed (s.Reset : Run (Optional T) E Unit).log
        + (s.Reset : Run (Optional T) E Unit).state.count := by
  obtain ⟨-, hs, hl⟩ := @Reset_of_WF T E s h
  rw [hs, hl]
  cases hi : s.is_initialized_ <;>
    simp [WF, count, ctor_default, constructed, destroyed, invocations, TEvent.constructs, hi]

/-- `Emplace` keeps the slot well formed and the balance of its storage. -/
theorem Emplace_balance {s : Optional T} (h : s.WF) (ops : TOps T E A) (args : A) :
    (s.Emplace ops args).state.WF ∧
    constructed (s.Emplace ops args).log + s.count
      = destroyed (s.Emplace ops args).log + (s.Emplace ops args).state.count := by
  rw [Emplace_of_WF h]
  cases ops.construct args <;> cases hi : s.is_initialized_ <;>
    simp [WF, count, ctor_default, constructed, destroyed, invocations, TEvent.constructs, hi]

/-- The assignment from a value by copy keeps the slot well formed and the
balance of its storage. -/
theorem assign_copy_value_balance {s : Optional T} (h : s.WF) (ops : TOps T E A) (v : T) :
    (s.assign_copy_value ops v).state.WF ∧
    constructed (s.assign_copy_value ops v).log + s.count
      = destroyed (s.assign_copy_value ops v).log
        + (s.assign_copy_value ops v).state.count := by
  cases hi : s.is_initialized_ with
  | true =>
    obtain ⟨cur, hcur⟩ := h.data_of_initialized hi
    unfold assign_copy_value
    simp only [hi, hcur, if_true]
    split <;>
      simp [WF, count, constructed, destroyed, invocations, TEvent.constructs, hi]
  | false =>
    unfold assign_copy_value
    simp only [hi, Bool.false_eq_true, if_false]
    split <;>
      simp [WF, count, constructed, destroyed, invocations, TEvent.constructs, hi]

/-- The assignment from a value by move keeps the slot well formed and the
balance of its storage. -/
theorem assign_move_value_balance {s : Optional T} (h : s.WF) (ops : TOps T E A) (v : T) :
    (s.assign_move_value_self ops v).state.WF ∧
    constructed (s.assign_move_value_self ops v).log + s.count
      = destroyed (s.assign_move_value_self ops v).log
        + (s.assign_move_value_self ops v).state.count := by
  cases hi : s.is_initialized_ with
  | true =>
    obtain ⟨cur, hcur⟩ := h.data_of_initialized hi
    unfold assign_move_value_self assign_move_value
    simp only [hi, hcur, if_true]
    split <;>
      simp [WF, count, constructed, destroyed, invocations, TEvent.constructs, hi]
  | false =>
    unfold assign_move_value_self assign_move_value
    simp only [hi, Bool.false_eq_true, if_false]
    split <;>
      simp [WF, count, constructed, destroyed, invocations, TEvent.constructs, hi]

end Optional

namespace Mem

variable {T E A : Type}

/-- The copy-assignment from a slot keeps its target well formed and the
balance of the target's storage. -/
theorem assign_copy_balance (ops : TOps T E A) (m : Mem T) (this rhs : Nat)
    (h : (m this).WF) :
    ((assign_copy ops m this rhs).state this).WF ∧
    constructed (assign_copy ops m this rhs).log + (m this).count
      = destroyed (assign_copy ops m this rhs).log
        + ((assign_copy ops m this rhs).state this).count := by
  by_cases hne : this = rhs
  · simp [assign_copy, hne, constructed, destroyed, invocations]
    rw [← hne]
    exact h
  · cases hr : (m rhs).is_initialized_ with
    | false =>
      have hb := @Optional.Reset_balance T E (m this) h
      simpa [assign_copy, hne, hr] using hb
    | true =>
      cases hi : (m this).is_initialized_ with
      | true =>
        obtain ⟨cur, hcur⟩ := h.data_of_initialized hi
        unfold assign_copy
        simp only [ne_eq, hne, not_false_eq_true, hr, hi, hcur, if_true]
        split
        · split <;>
            simp [Optional.WF, Optional.count, constructed, destroyed, invocations,
              TEvent.constructs, hi]
        · simp [Optional.WF, Optional.count, constructed, destroyed, invocations, hi, hcur]
      | false =>
        have hd := h.data_of_not_initialized hi
        unfold assign_copy
        simp only [ne_eq, hne, not_false_eq_true, hr, hi, Bool.false_eq_true, if_true,
          if_false]
        split
        · split <;>
            simp [Optional.WF, Optional.count, constructed, destroyed, invocations,
              TEvent.constructs, hi]
        · simp [Optional.WF, Optional.count, constructed, destroyed, invocations, hi, hd]

/-- The move-assignment from a slot keeps its target well formed and the
balance of the target's storage. -/
theorem assign_move_balance (ops : TOps T E A) (m : Mem T) (this rhs : Nat)
    (h : (m this).WF) :
    ((assign_move ops m this rhs).state this).WF ∧
    constructed (assign_move ops m this rhs).log + (m this).count
      = destroyed (assign_move ops m this rhs).log
        + ((assign_move ops m this rhs).state this).count := by
  by_cases hne : this = rhs
  · simp [assign_move, hne, constructed, destroyed, invocations]
    rw [← hne]
    exact h
  · cases hr : (m rhs).is_initialized_ with
    | false =>
      have hb := @Optional.Reset_balance T E (m this) h
      simpa [assign_move, hne, hr] using hb
    | true =>
      cases hi : (m this).is_initialized_ with
      | true =>
        obtain ⟨cur, hcur⟩ := h.data_of_initialized hi
        unfold assign_move
        simp only [ne_eq, hne, not_false_eq_true, hr, hi, hcur, if_true]
        split
        · split <;>
            simp [Optional.WF, Optional.count, constructed, destroyed, invocations,
              TEvent.constructs, hi]
        · simp [Optional.WF, Optional.count, constructed, destroyed, invocations, hi, hcur]
      | false =>
        have hd := h.data_of_not_initialized hi
        unfold assign_move
        simp only [ne_eq, hne, not_false_eq_true, hr, hi, Bool.false_eq_true, if_true,
          if_false]
        split
        · split <;>
            simp [Optional.WF, Optional.count, constructed, destroyed, invocations,
              TEvent.constructs, hi]
        · simp [Optional.WF, Optional.count, constructed, destroyed, invocations, hi, hd]

/-- The copy-assignment to another slot leaves its source as it was. -/
theorem assign_copy_source (ops : TOps T E A) (m : Mem T) (this rhs : Nat)
    (hne : this ≠ rhs) : (assign_copy ops m this rhs).state rhs = m rhs := by
  have hne' : rhs ≠ this := fun e => hne e.symm
  unfold assign_copy
  simp only [ne_eq, hne, not_false_eq_true, if_true]
  split
  · split
    · split
      · split <;> simp [Function.update_noteq hne']
      · rfl
    · split
      · split <;> simp [Function.update_noteq hne']
      · rfl
  · simp [Function.update_noteq hne']

/-- The move-assignment to another slot keeps its source well formed, with
the same flag. -/
theorem assign_move_source (ops : TOps T E A) (m : Mem T) (this rhs : Nat)
    (hne : this ≠ rhs) (h : (m rhs).WF) :
    ((assign_move ops m this rhs).state rhs).WF ∧
    ((assign_move ops m this rhs).state rhs).count = (m rhs).count := by
  have hne' : rhs ≠ this := fun e => hne e.symm
  cases hr : (m rhs).is_initialized_ with
  | false =>
    have hs : (assign_move ops m this rhs).state rhs = m rhs := by
      simp [assign_move, hne, hr, Function.update_noteq hne']
    rw [hs]
    exact ⟨h, rfl⟩
  | true =>
    obtain ⟨src, hsrc⟩ := h.data_of_initialized hr
    unfold assign_move
    simp only [ne_eq, hne, not_false_eq_true, hr, hsrc, if_true]
    split
    · split
      · split <;>
          simp [Function.update_noteq hne', Optional.WF, Optional.count, hr]
      · exact ⟨h, rfl⟩
    · split <;>
        simp [Function.update_noteq hne', Optional.WF, Optional.count, hr]

end Mem

/-- The move-construction of another slot keeps its source well formed, with
the same flag. -/
theorem Optional.ctor_move_source {T E A : Type} (ops : TOps T E A) {s : Optional T}
    (h : s.WF) :
    (Optional.ctor_move ops s).state.WF ∧ (Optional.ctor_move ops s).state.count = s.count := by
  cases hi : s.is_initialized_ with
  | false =>
    have hs : (Optional.ctor_move ops s).state = s := by
      simp [Optional.ctor_move, hi]
    rw [hs]
    exact ⟨h, rfl⟩
  | true =>
    obtain ⟨src, hsrc⟩ := h.data_of_initialized hi
    simp only [Optional.ctor_move, hi, hsrc, if_true]
    split <;> simp [Optional.WF, Optional.count, hi]

/-! ### Every use of a slot keeps the balance -/

/-- One use of a well-formed slot leaves it well formed, and the trace on its
storage changes the balance of constructions and destructions by what the
flag changes. -/
theorem Call.step_balance {T E A : Type} (ops : TOps T E A) (s : Optional T) (h : s.WF)
    (c : Call T A) :
    (c.step ops s).state.WF ∧
    constructed (c.step ops s).log + s.count
      = destroyed (c.step ops s).log + (c.step ops s).state.count := by
  have h01 : (0 : Nat) ≠ 1 := by decide
  cases c with
  | HasValue => exact ⟨h, rfl⟩
  | Value => exact ⟨h, rfl⟩
  | Reset => exact Optional.Reset_balance h
  | Emplace args => exact Optional.Emplace_balance h ops args
  | assign_copy_value v => exact Optional.assign_copy_value_balance h ops v
  | assign_move_value v => exact Optional.assign_move_value_balance h ops v
  | assign_copy rhs => exact Mem.assign_copy_balance ops (Mem.pair s rhs) 0 1 h
  | assign_move rhs => exact Mem.assign_move_balance ops (Mem.pair s rhs) 0 1 h
  | assign_copy_self => exact Mem.assign_copy_balance ops (Mem.pair s s) 0 0 h
  | assign_move_self => exact Mem.assign_move_balance ops (Mem.pair s s) 0 0 h
  | source_of_ctor_copy => exact ⟨h, rfl⟩
  | source_of_ctor_move =>
    obtain ⟨hw, hc⟩ := Optional.ctor_move_source ops h
    exact ⟨hw, by simp [Call.step, hc, constructed, destroyed, invocations]⟩
  | source_of_assign_copy target =>
    have hs := Mem.assign_copy_source ops (Mem.pair target s) 0 1 h01
    simp only [Call.step, hs]
    exact ⟨h, rfl⟩
  | source_of_assign_move target =>
    obtain ⟨hw, hc⟩ := Mem.assign_move_source ops (Mem.pair target s) 0 1 h01 h
    exact ⟨hw, by
      simp only [Call.step, hc]
      simp [Mem.pair, constructed, destroyed, invocations]⟩

/-- After every sequence of uses a well-formed slot is well formed, and the
trace on its storage changed the balance of constructions and destructions
by what the flag changed. -/
theorem run_balance {T E A : Type} (ops : TOps T E A) (calls : List (Call T A)) :
    ∀ s : Optional T, s.WF →
      (run ops s calls).state.WF ∧
      constructed (run ops s calls).log + s.count
        = destroyed (run ops s calls).log + (run ops s calls).state.count := by
  induction calls with
  | nil =>
    intro s h
    exact ⟨h, rfl⟩
  | cons c cs ih =>
    intro s h
    obtain ⟨hw, hb⟩ := Call.step_balance ops s h c
    obtain ⟨hw', hb'⟩ := ih (c.step ops s).state hw
    unfold run
    split
    · exact ⟨hw, hb⟩
    · exact ⟨hw, hb⟩
    · refine ⟨hw', ?_⟩
      simp only [constructed_append, destroyed_append]
      omega

/-! ## Checked access -/

section Claims

open Optional

variable {T E A : Type}

/-- C1: on every slot, each of the three forms of `Value()` throws
`BadOptionalAccess` exactly when the slot is not occupied, and on an occupied
slot each of them returns the contained value. -/
theorem Value_throws_iff_not_occupied (s : Optional T) (h : s.WF) :
    ((s.Value : Outcome E T) = .throw .BadOptionalAccess ↔ s.HasValue = false) ∧
    ((s.Value_const : Outcome E T) = .throw .BadOptionalAccess ↔ s.HasValue = false) ∧
    ((s.Value_rvalue : Outcome E T) = .throw .BadOptionalAccess ↔ s.HasValue = false) ∧
    (s.HasValue = true → ∃ v, s.data_ = some v ∧
      (s.Value : Outcome E T) = .ret v ∧
      (s.Value_const : Outcome E T) = .ret v ∧
      (s.Value_rvalue : Outcome E T) = .ret v) := by
  cases hi : s.is_initialized_ with
  | false =>
    simp [Value, Value_const, Value_rvalue, HasValue, hi]
  | true =>
    obtain ⟨v, hv⟩ := h.data_of_initialized hi
    simp [Value, Value_const, Value_rvalue, HasValue, deref, deref_const, hi, hv]

/-- Witness of C1 at the occupied `Optional<int>` holding 7. -/
theorem Value_throws_iff_not_occupied_witness :
    ({ data_ := some 7, is_initialized_ := true } : Optional Int).WF ∧
    (({ data_ := some 7, is_initialized_ := true } : Optional Int).Value : Outcome Empty Int)
      ≠ .throw .BadOptionalAccess :=
  ⟨by decide, fun hthrow =>
    Bool.noConfusion
      ((Value_throws_iff_not_occupied
        ({ data_ := some 7, is_initialized_ := true } : Optional Int) (by decide)).1.mp hthrow)⟩

/-- C2: a default-constructed slot reports `HasValue() == false`, and each
form of `Value()` on it throws `BadOptionalAccess`. -/
theorem default_constructed_is_empty :
    (ctor_default : Optional T).HasValue = false ∧
    ((ctor_default : Optional T).Value : Outcome E T) = .throw .BadOptionalAccess ∧
    ((ctor_default : Optional T).Value_const : Outcome E T) = .throw .BadOptionalAccess ∧
    ((ctor_default : Optional T).Value_rvalue : Outcome E T) = .throw .BadOptionalAccess := by
  simp [ctor_default, HasValue, Value, Value_const, Value_rvalue]

/-- C3: when `T`'s copy and move constructors yield a value equal to their
argument `v`, the slot constructed from `v`, by copy or by move, reports
`HasValue() == true` and `Value()` returns `v`. -/
theorem constructed_from_value_holds_it (ops : TOps T E A) (v : T)
    (hcopy : ops.copyConstruct v = .ok v)
    (hmove : (ops.moveConstruct v).1 = .ok v) :
    (∃ s, (ctor_copy_value ops v).out = .ret s ∧ s.HasValue = true ∧
      (s.Value : Outcome E T) = .ret v ∧ (s.Value_const : Outcome E T) = .ret v ∧
      (s.Value_rvalue : Outcome E T) = .ret v) ∧
    (∃ s, (ctor_move_value ops v).out = .ret s ∧ s.HasValue = true ∧
      (s.Value : Outcome E T) = .ret v ∧ (s.Value_const : Outcome E T) = .ret v ∧
      (s.Value_rvalue : Outcome E T) = .ret v) := by
  constructor
  · refine ⟨{ data_ := some v, is_initialized_ := true }, ?_, ?_⟩
    · simp [ctor_copy_value, hcopy]
    · simp [HasValue, Value, Value_const, Value_rvalue, deref, deref_const]
  · refine ⟨{ data_ := some v, is_initialized_ := true }, ?_, ?_⟩
    · cases hm : ops.moveConstruct v with
      | mk r src =>
        rw [hm] at hmove
        simp only at hmove
        subst hmove
        simp [ctor_move_value, hm]
    · simp [HasValue, Value, Value_const, Value_rvalue, deref, deref_const]

/-- Witness of C3 at `T = int`, `v = 5`. -/
theorem constructed_from_value_holds_it_witness :
    (ctor_copy_value intOps 5).out = .ret { data_ := some 5, is_initialized_ := true } ∧
    ∃ s, (ctor_move_value intOps 5).out = .ret s ∧ s.HasValue = true ∧
      (s.Value : Outcome Empty Int) = .ret 5 ∧ (s.Value_const : Outcome Empty Int) = .ret 5 ∧
      (s.Value_rvalue : Outcome Empty Int) = .ret 5 :=
  ⟨by decide, (constructed_from_value_holds_it intOps 5 rfl rfl).2⟩

/-- C4: for every slot, empty or occupied, and every argument pack from which
`T`'s constructor succeeds with the object `w`, `Emplace` returns and leaves the
slot occupied, holding `w`. -/
theorem Emplace_occupies (ops : TOps T E A) (s : Optional T) (h : s.WF)
    (args : A) (w : T) (hw : ops.construct args = .ok w) :
    (s.Emplace ops args).out = .ret () ∧
    (s.Emplace ops args).state.HasValue = true ∧
    (s.Emplace ops args).state.data_ = some w ∧
    ((s.Emplace ops args).state.Value : Outcome E T) = .ret w := by
  obtain ⟨ho, -, -⟩ := @Reset_of_WF T E s h
  simp [Emplace, ho, hw, HasValue, Value, deref]

/-- Witness of C4: `Emplace(9)` on an `Optional<int>` holding 3. -/
theorem Emplace_occupies_witness :
    ({ data_ := some 3, is_initialized_ := true } : Optional Int).WF ∧
    (Emplace intOps { data_ := some 3, is_initialized_ := true } 9).state.data_ = some 9 :=
  ⟨by decide, (Emplace_occupies intOps { data_ := some 3, is_initialized_ := true }
    (by decide) 9 9 rfl).2.2.1⟩

/-- C5: on every slot a second `Reset()` changes nothing: after one `Reset()`
`HasValue()` is false, and the second call returns, leaves the same state and
invokes no member function of `T`, so no destructor. -/
theorem Reset_idempotent (s : Optional T) (h : s.WF) :
    (s.Reset : Run (Optional T) E Unit).out = .ret () ∧
    (s.Reset : Run (Optional T) E Unit).state.HasValue = false ∧
    ((s.Reset : Run (Optional T) E Unit).state.Reset : Run (Optional T) E Unit).out = .ret () ∧
    ((s.Reset : Run (Optional T) E Unit).state.Reset : Run (Optional T) E Unit).state
      = (s.Reset : Run (Optional T) E Unit).state ∧
    ((s.Reset : Run (Optional T) E Unit).state.Reset : Run (Optional T) E Unit).log = [] ∧
    invocations .destroy
      ((s.Reset : Run (Optional T) E Unit).state.Reset : Run (Optional T) E Unit).log = 0 := by
  obtain ⟨ho, hs, -⟩ := @Reset_of_WF T E s h
  rw [hs]
  refine ⟨ho, ?_, ?_, ?_, ?_, ?_⟩ <;> simp [ctor_default, HasValue, Reset, invocations]

/-- Witness of C5 at the `Optional<int>` holding 3: the first `Reset()` destroys
the value, the second destroys nothing. -/
theorem Reset_idempotent_witness :
    ({ data_ := some 3, is_initialized_ := true } : Optional Int).WF ∧
    (({ data_ := some 3, is_initialized_ := true } : Optional Int).Reset :
      Run (Optional Int) Empty Unit).log = [⟨.destroy, false⟩] ∧
    ((({ data_ := some 3, is_initialized_ := true } : Optional Int).Reset :
      Run (Optional Int) Empty Unit).state.Reset : Run (Optional Int) Empty Unit).log = [] :=
  ⟨by decide, by decide,
    (@Reset_idempotent Int Empty { data_ := some 3, is_initialized_ := true }
      (by decide)).2.2.2.2.1⟩

/-! ## Copies, self-assignment and assignment from an empty slot -/

/-- C6: let `S` (at address `s`) hold `v` and let `T`'s copy operations yield a
value equal to `v`.  The slot `C` (at another address `c`) made by
copy-construction from `S`, or by the copy-assignment `C = S`, holds `v` and
`S` still holds `v`; afterwards a value assignment, `Emplace` or `Reset` on `C`
leaves `S` as it was, and the same calls on `S` leave `C` as it was. -/
theorem copy_is_independent (ops : TOps T E A) (m : Mem T) (s c : Nat) (hne : c ≠ s)
    (v : T) (hS : m s = { data_ := some v, is_initialized_ := true }) (hC : (m c).WF)
    (hcopy : ops.copyConstruct v = .ok v)
    (hassign : ∀ cur, ops.copyAssign cur v = (v, none)) :
    (Mem.construct_at m c (ctor_copy ops (m s))).out = .ret () ∧
    (Mem.assign_copy ops m c s).out = .ret () ∧
    ∀ m1 : Mem T,
      (m1 = (Mem.construct_at m c (ctor_copy ops (m s))).state ∨
        m1 = (Mem.assign_copy ops m c s).state) →
      m1 c = { data_ := some v, is_initialized_ := true } ∧
      m1 s = { data_ := some v, is_initialized_ := true } ∧
      ∀ (x : T) (args : A),
        (Mem.call m1 c (fun o => o.assign_copy_value ops x)).state s = m1 s ∧
        (Mem.call m1 c (fun o => o.assign_move_value_self ops x)).state s = m1 s ∧
        (Mem.call m1 c (fun o => o.Emplace ops args)).state s = m1 s ∧
        (Mem.call m1 c (fun o => (o.Reset : Run (Optional T) E Unit))).state s = m1 s ∧
        (Mem.call m1 s (fun o => o.assign_copy_value ops x)).state c = m1 c ∧
        (Mem.call m1 s (fun o => o.assign_move_value_self ops x)).state c = m1 c ∧
        (Mem.call m1 s (fun o => o.Emplace ops args)).state c = m1 c ∧
        (Mem.call m1 s (fun o => (o.Reset : Run (Optional T) E Unit))).state c = m1 c := by
  have hctor : (ctor_copy ops (m s)).out
      = .ret { data_ := some v, is_initialized_ := true } := by
    simp [ctor_copy, hS, hcopy]
  have hasg : (Mem.assign_copy ops m c s).out = .ret () ∧
      (Mem.assign_copy ops m c s).state
        = Function.update m c { data_ := some v, is_initialized_ := true } := by
    cases hi : (m c).is_initialized_ with
    | true =>
      obtain ⟨cur, hcur⟩ := hC.data_of_initialized hi
      have hmc : m c = { data_ := some cur, is_initialized_ := true } := by
        cases hh : m c with
        | mk d i =>
          rw [hh] at hi hcur
          simp only at hi hcur
          rw [hi, hcur]
      simp [Mem.assign_copy, hne, hS, hmc, hassign]
    | false =>
      simp [Mem.assign_copy, hne, hS, hi, hcopy]
  have hs' : s ≠ c := fun h => hne h.symm
  refine ⟨by simp [Mem.construct_at, hctor], hasg.1, ?_⟩
  intro m1 hm1
  have hm1' : m1 = Function.update m c { data_ := some v, is_initialized_ := true } := by
    rcases hm1 with h | h
    · rw [h]
      simp [Mem.construct_at, hctor]
    · rw [h, hasg.2]
  subst hm1'
  refine ⟨by simp, by simp [hs', hS], ?_⟩
  intro x args
  simp [Mem.call, hs', hne]

/-- Witness of C6 in a memory of `Optional<int>`: the slot at address 0 holds 7,
the slot at address 1 is empty; after the copy-assignment of slot 0 to slot 1
and `Emplace(9)` on slot 1, slot 0 still holds 7. -/
theorem copy_is_independent_witness :
    (Mem.call (Mem.assign_copy intOps
        (fun a => if a = 0 then { data_ := some 7, is_initialized_ := true }
          else { data_ := none, is_initialized_ := false }) 1 0).state 1
      (fun o => o.Emplace intOps 9)).state 0
    = { data_ := some 7, is_initialized_ := true } :=
  let m : Mem Int := fun a =>
    if a = 0 then { data_ := some 7, is_initialized_ := true }
    else { data_ := none, is_initialized_ := false }
  let h := (copy_is_independent intOps m 0 1 (by decide) 7 rfl (by decide) rfl
    (fun _ => rfl)).2.2 (Mem.assign_copy intOps m 1 0).state (Or.inr rfl)
  ((h.2.2 0 9).2.2.1).trans h.2.1

/-- C7: assigning a slot to itself, by copy or by move, returns, leaves the
whole memory (so the slot's flag and contained value) as it was, and invokes no
member function of `T`. -/
theorem self_assignment_is_noop (ops : TOps T E A) (m : Mem T) (a : Nat) :
    (Mem.assign_copy ops m a a).out = .ret () ∧
    (Mem.assign_copy ops m a a).state = m ∧
    (Mem.assign_copy ops m a a).log = [] ∧
    (Mem.assign_move ops m a a).out = .ret () ∧
    (Mem.assign_move ops m a a).state = m ∧
    (Mem.assign_move ops m a a).log = [] := by
  simp [Mem.assign_copy, Mem.assign_move]

/-- C8: for distinct slots `A` and `B` with `B` empty, `A = B`, by copy or by
move, returns and leaves `A` empty; the only member function of `T` it invokes
is the destructor, once when `A` was occupied and not at all when it was
empty; `B` is left as it was. -/
theorem assign_from_empty_clears (ops : TOps T E A) (m : Mem T) (a b : Nat)
    (hne : a ≠ b) (hA : (m a).WF) (hB : (m b).HasValue = false) :
    ((Mem.assign_copy ops m a b).out = .ret () ∧
      ((Mem.assign_copy ops m a b).state a).HasValue = false ∧
      (Mem.assign_copy ops m a b).state b = m b ∧
      (Mem.assign_copy ops m a b).log
        = (if (m a).HasValue then [⟨.destroy, false⟩] else []) ∧
      invocations .destroy (Mem.assign_copy ops m a b).log
        = (if (m a).HasValue then 1 else 0)) ∧
    ((Mem.assign_move ops m a b).out = .ret () ∧
      ((Mem.assign_move ops m a b).state a).HasValue = false ∧
      (Mem.assign_move ops m a b).state b = m b ∧
      (Mem.assign_move ops m a b).log
        = (if (m a).HasValue then [⟨.destroy, false⟩] else []) ∧
      invocations .destroy (Mem.assign_move ops m a b).log
        = (if (m a).HasValue then 1 else 0)) := by
  obtain ⟨ho, hs, hl⟩ := @Reset_of_WF T E (m a) hA
  have hB' : (m b).is_initialized_ = false := hB
  have hba : b ≠ a := fun h => hne h.symm
  have hcount : invocations .destroy
      (if (m a).is_initialized_ then [(⟨.destroy, false⟩ : TEvent)] else [])
      = (if (m a).is_initialized_ then 1 else 0) := by
    cases (m a).is_initialized_ <;> simp [invocations]
  simp only [Mem.assign_copy, Mem.assign_move, HasValue, hne, hB', ho, hs, hl]
  simp [ctor_default, hne, hba, hcount]

/-- Witness of C8 in a memory of `Optional<int>`: slot 0 holds 7, every other
slot is empty; after `slot0 = slot1` slot 0 is empty and 7 was destroyed once. -/
theorem assign_from_empty_clears_witness :
    (Mem.assign_copy intOps
      (fun a => if a = 0 then { data_ := some 7, is_initialized_ := true }
        else { data_ := none, is_initialized_ := false }) 0 1).log
    = [⟨.destroy, false⟩] :=
  (assign_from_empty_clears intOps
    (fun a => if a = 0 then { data_ := some 7, is_initialized_ := true }
      else { data_ := none, is_initialized_ := false }) 0 1
    (by decide) (by decide) rfl).1.2.2.2.1

/-! ## `Emplace`, `Reset` and assignment from a value -/

/-- C9: starting from a default-constructed `Optional<int>`, `Emplace(42)`
returns and leaves `HasValue()` true and `Value()` returning 42; the following
`Reset()` returns and leaves `HasValue()` false and `Value()` throwing
`BadOptionalAccess`.  For every `T`, slot and argument pack, `Reset()` after
`Emplace` returns and leaves the slot in the default-constructed, empty state. -/
theorem emplace_reset_round_trip (ops : TOps T E A) (s : Optional T) (h : s.WF)
    (args : A) :
    (((ctor_default : Optional Int).Emplace intOps 42).out = .ret () ∧
      ((ctor_default : Optional Int).Emplace intOps 42).state.HasValue = true ∧
      (((ctor_default : Optional Int).Emplace intOps 42).state.Value : Outcome Empty Int)
        = .ret 42 ∧
      (((ctor_default : Optional Int).Emplace intOps 42).state.Reset :
        Run (Optional Int) Empty Unit).out = .ret () ∧
      (((ctor_default : Optional Int).Emplace intOps 42).state.Reset :
        Run (Optional Int) Empty Unit).state.HasValue = false ∧
      ((((ctor_default : Optional Int).Emplace intOps 42).state.Reset :
        Run (Optional Int) Empty Unit).state.Value : Outcome Empty Int)
        = .throw .BadOptionalAccess) ∧
    (((s.Emplace ops args).state.Reset : Run (Optional T) E Unit).out = .ret () ∧
      ((s.Emplace ops args).state.Reset : Run (Optional T) E Unit).state = ctor_default ∧
      ((s.Emplace ops args).state.Reset : Run (Optional T) E Unit).state.HasValue
        = false) := by
  refine ⟨by decide, ?_⟩
  rw [Emplace_of_WF h]
  cases ops.construct args <;> simp [Reset, ctor_default, HasValue]

/-- Witness of C9: `Emplace(42)` then `Reset()` on an `Optional<int>` that
holds 1 leaves the default-constructed state. -/
theorem emplace_reset_round_trip_witness :
    ({ data_ := some 1, is_initialized_ := true } : Optional Int).WF ∧
    ((Emplace intOps { data_ := some 1, is_initialized_ := true } 42).state.Reset :
      Run (Optional Int) Empty Unit).state = ctor_default :=
  ⟨by decide, (emplace_reset_round_trip intOps { data_ := some 1, is_initialized_ := true }
    (by decide) 42).2.2.1⟩

/-- C10: let `T`'s copy and move operations yield a value equal to their
argument `v`.  On every slot the assignment `S = v`, by copy or by move,
returns and leaves the slot occupied, holding `v`.  On an occupied slot the only
member function of `T` it invokes is the assignment operator, once; on an
empty slot it is the constructor, once. -/
theorem assign_value_occupies (ops : TOps T E A) (s : Optional T) (h : s.WF) (v : T)
    (hcopy : ops.copyConstruct v = .ok v)
    (hmove : (ops.moveConstruct v).1 = .ok v)
    (hcopyAssign : ∀ cur, ops.copyAssign cur v = (v, none))
    (hmoveAssign : ∀ cur, (ops.moveAssign cur v).1 = v ∧ (ops.moveAssign cur v).2.2 = none) :
    ((s.assign_copy_value ops v).out = .ret () ∧
      (s.assign_copy_value ops v).state = { data_ := some v, is_initialized_ := true } ∧
      (s.assign_copy_value ops v).state.HasValue = true ∧
      ((s.assign_copy_value ops v).state.Value : Outcome E T) = .ret v ∧
      (s.assign_copy_value ops v).log
        = (if s.HasValue then [⟨.copyAssign, false⟩] else [⟨.copyConstruct, false⟩])) ∧
    ((s.assign_move_value ops v).out = .ret () ∧
      (s.assign_move_value ops v).state.1 = { data_ := some v, is_initialized_ := true } ∧
      (s.assign_move_value ops v).state.1.HasValue = true ∧
      ((s.assign_move_value ops v).state.1.Value : Outcome E T) = .ret v ∧
      (s.assign_move_value ops v).log
        = (if s.HasValue then [⟨.moveAssign, false⟩] else [⟨.moveConstruct, false⟩])) := by
  cases hi : s.is_initialized_ with
  | true =>
    obtain ⟨cur, hcur⟩ := h.data_of_initialized hi
    obtain ⟨h1, h2⟩ := hmoveAssign cur
    cases hm : ops.moveAssign cur v with
    | mk t rest =>
      cases rest with
      | mk src err =>
        rw [hm] at h1 h2
        simp only at h1 h2
        subst h1 h2
        have hstate : ({ s with data_ := some t } : Optional T)
            = { data_ := some t, is_initialized_ := true } := by
          rw [hi]
        simp [assign_copy_value, assign_move_value, hi, hcur, hcopyAssign, hm, hstate,
          HasValue, Value, deref]
  | false =>
    cases hm : ops.moveConstruct v with
    | mk r src =>
      rw [hm] at hmove
      simp only at hmove
      subst hmove
      simp [assign_copy_value, assign_move_value, hi, hcopy, hm, HasValue, Value, deref]

/-- Witness of C10: `S = 9` on an `Optional<int>` holding 3 runs `int`'s
assignment once and nothing else. -/
theorem assign_value_occupies_witness :
    ({ data_ := some 3, is_initialized_ := true } : Optional Int).WF ∧
    (assign_copy_value intOps { data_ := some 3, is_initialized_ := true } 9).log
      = [⟨.copyAssign, false⟩] ∧
    (assign_copy_value intOps { data_ := some 3, is_initialized_ := true } 9).state
      = { data_ := some 9, is_initialized_ := true } :=
  ⟨by decide,
    (assign_value_occupies intOps { data_ := some 3, is_initialized_ := true } (by decide) 9
      rfl rfl (fun _ => rfl) (fun _ => ⟨rfl, rfl⟩)).1.2.2.2.2,
    (assign_value_occupies intOps { data_ := some 3, is_initialized_ := true } (by decide) 9
      rfl rfl (fun _ => rfl) (fun _ => ⟨rfl, rfl⟩)).1.2.1⟩

/-! ## Assignment and construction from a slot -/

/-- C11: let `R` hold `v`, let `S` be another slot, and let `T`'s copy and
move operations yield a value equal to their argument `v`.  Then `S = R`, by
copy or by move, returns and leaves `S` occupied, holding `v`.  When `S` was
occupied the only member function of `T` run on `S`'s storage is the
assignment operator, once; when `S` was empty it is the constructor, once. -/
theorem assign_from_occupied (ops : TOps T E A) (m : Mem T) (this rhs : Nat)
    (hne : this ≠ rhs) (v : T)
    (hR : m rhs = { data_ := some v, is_initialized_ := true }) (hS : (m this).WF)
    (hcopy : ops.copyConstruct v = .ok v)
    (hmove : (ops.moveConstruct v).1 = .ok v)
    (hcopyAssign : ∀ cur, ops.copyAssign cur v = (v, none))
    (hmoveAssign : ∀ cur, (ops.moveAssign cur v).1 = v ∧ (ops.moveAssign cur v).2.2 = none) :
    ((Mem.assign_copy ops m this rhs).out = .ret () ∧
      (Mem.assign_copy ops m this rhs).state this
        = { data_ := some v, is_initialized_ := true } ∧
      (Mem.assign_copy ops m this rhs).log
        = (if (m this).HasValue then [⟨.copyAssign, false⟩] else [⟨.copyConstruct, false⟩])) ∧
    ((Mem.assign_move ops m this rhs).out = .ret () ∧
      (Mem.assign_move ops m this rhs).state this
        = { data_ := some v, is_initialized_ := true } ∧
      (Mem.assign_move ops m this rhs).log
        = (if (m this).HasValue then [⟨.moveAssign, false⟩] else [⟨.moveConstruct, false⟩])) := by
  cases hi : (m this).is_initialized_ with
  | true =>
    obtain ⟨cur, hcur⟩ := hS.eq_of_initialized hi
    obtain ⟨h1, h2⟩ := hmoveAssign cur
    cases hm : ops.moveAssign cur v with
    | mk t rest =>
      cases rest with
      | mk src err =>
        rw [hm] at h1 h2
        simp only at h1 h2
        subst h1 h2
        simp [Mem.assign_copy, Mem.assign_move, hne, hR, hcur, hcopyAssign, hm, HasValue]
  | false =>
    cases hm : ops.moveConstruct v with
    | mk r src =>
      rw [hm] at hmove
      simp only at hmove
      subst hmove
      simp [Mem.assign_copy, Mem.assign_move, hne, hR, hi, hcopy, hm, HasValue]

/-- Witness of C11 in a memory of `Optional<int>`: slot 1 holds 7 and slot 0
holds 3; `slot0 = slot1` runs `int`'s assignment once and slot 0 holds 7. -/
theorem assign_from_occupied_witness :
    (Mem.assign_copy intOps
      (fun a => if a = 1 then { data_ := some 7, is_initialized_ := true }
        else { data_ := some 3, is_initialized_ := true }) 0 1).log
      = [⟨.copyAssign, false⟩] ∧
    (Mem.assign_copy intOps
      (fun a => if a = 1 then { data_ := some 7, is_initialized_ := true }
        else { data_ := some 3, is_initialized_ := true }) 0 1).state 0
      = { data_ := some 7, is_initialized_ := true } :=
  ⟨(assign_from_occupied intOps
      (fun a => if a = 1 then { data_ := some 7, is_initialized_ := true }
        else { data_ := some 3, is_initialized_ := true }) 0 1
      (by decide) 7 rfl (by decide) rfl rfl (fun _ => rfl) (fun _ => ⟨rfl, rfl⟩)).1.2.2,
    by decide⟩

/-- C12: let `T`'s copy and move constructors yield a value equal to their
argument.  The slot copy-constructed or move-constructed from a slot `other`
reports the same `HasValue()` as `other`; when `other` holds `v` the new slot
holds `v`; when `other` is empty no member function of `T` is invoked and the
result does not depend on the content `d` of `other`'s buffer. -/
theorem construct_from_slot (ops : TOps T E A) (other : Optional T) (hO : other.WF)
    (hcopy : ∀ v, other.data_ = some v → ops.copyConstruct v = .ok v)
    (hmove : ∀ v, other.data_ = some v → (ops.moveConstruct v).1 = .ok v) :
    (∃ s, (ctor_copy ops other).out = .ret s ∧ s.HasValue = other.HasValue ∧
      (other.HasValue = true → s.data_ = other.data_ ∧
        (s.Value : Outcome E T) = (other.Value : Outcome E T)) ∧
      (other.HasValue = false → (ctor_copy ops other).log = [])) ∧
    (∃ s, (ctor_move ops other).out = .ret s ∧ s.HasValue = other.HasValue ∧
      (other.HasValue = true → s.data_ = other.data_ ∧
        (s.Value : Outcome E T) = (other.Value : Outcome E T)) ∧
      (other.HasValue = false → (ctor_move ops other).log = [])) ∧
    (∀ d : Option T,
      (ctor_copy ops { data_ := d, is_initialized_ := false }).out
        = .ret { data_ := none, is_initialized_ := false } ∧
      (ctor_copy ops { data_ := d, is_initialized_ := false }).log = [] ∧
      (ctor_move ops { data_ := d, is_initialized_ := false }).out
        = .ret { data_ := none, is_initialized_ := false } ∧
      (ctor_move ops { data_ := d, is_initialized_ := false }).log = []) := by
  refine ⟨?_, ?_, ?_⟩
  · cases hi : other.is_initialized_ with
    | true =>
      obtain ⟨v, hv⟩ := hO.eq_of_initialized hi
      subst hv
      have hc := hcopy v rfl
      exact ⟨{ data_ := some v, is_initialized_ := true }, by simp [ctor_copy, hc],
        rfl, fun _ => ⟨rfl, rfl⟩, fun h => by simp [HasValue] at h⟩
    | false =>
      have hv := hO.eq_of_not_initialized hi
      subst hv
      exact ⟨{ data_ := none, is_initialized_ := false }, by simp [ctor_copy, ctor_default],
        rfl, fun h => by simp [HasValue, ctor_default] at h,
        fun _ => by simp [ctor_copy, ctor_default]⟩
  · cases hi : other.is_initialized_ with
    | true =>
      obtain ⟨v, hv⟩ := hO.eq_of_initialized hi
      subst hv
      have hc := hmove v rfl
      cases hm : ops.moveConstruct v with
      | mk r src =>
        rw [hm] at hc
        simp only at hc
        subst hc
        exact ⟨{ data_ := some v, is_initialized_ := true }, by simp [ctor_move, hm],
          rfl, fun _ => ⟨rfl, rfl⟩, fun h => by simp [HasValue] at h⟩
    | false =>
      have hv := hO.eq_of_not_initialized hi
      subst hv
      exact ⟨{ data_ := none, is_initialized_ := false }, by simp [ctor_move, ctor_default],
        rfl, fun h => by simp [HasValue, ctor_default] at h,
        fun _ => by simp [ctor_move, ctor_default]⟩
  · intro d
    simp [ctor_copy, ctor_move]

/-- Witness of C12: the copy of an `Optional<int>` holding 7 holds 7. -/
theorem construct_from_slot_witness :
    ∃ s, (ctor_copy intOps { data_ := some 7, is_initialized_ := true }).out = .ret s ∧
      s.HasValue = true ∧ s.data_ = some 7 :=
  match (construct_from_slot intOps { data_ := some 7, is_initialized_ := true }
    (by decide) (fun _ _ => rfl) (fun _ _ => rfl)).1 with
  | ⟨s, hout, hhas, hocc, _⟩ => ⟨s, hout, hhas, (hocc rfl).1⟩

/-- C13: a move leaves the occupancy flag of its source as it was: after the
move-construction of a new slot from `other`, and after the move-assignment
of the slot at `rhs` to the slot at `this`, the source reports the same
`HasValue()` as before, true for an occupied source and false for an empty one. -/
theorem moved_from_keeps_flag (ops : TOps T E A) (other : Optional T)
    (m : Mem T) (this rhs : Nat) :
    (ctor_move ops other).state.HasValue = other.HasValue ∧
    ((Mem.assign_move ops m this rhs).state rhs).HasValue = (m rhs).HasValue := by
  constructor
  · unfold ctor_move
    split
    · split
      · split <;> rfl
      · rfl
    · rfl
  · by_cases h : this = rhs
    · simp [Mem.assign_move, h]
    · have h' : rhs ≠ this := fun e => h e.symm
      unfold Mem.assign_move
      simp only [ne_eq, h, not_false_eq_true, if_true]
      split
      · split
        · split
          · split <;> simp [Function.update_noteq h', HasValue]
          · rfl
        · split
          · split <;> simp [Function.update_noteq h', HasValue]
          · rfl
      · simp [Function.update_noteq h']

/-! ## Failures of `T` -/

/-- C15: on every slot, empty or occupied, when `T`'s constructor throws `e`
for the given arguments, `Emplace` throws `e` and leaves the slot empty; the
old value, when there was one, was destroyed exactly once and nothing was
constructed. -/
theorem Emplace_failure_leaves_empty (ops : TOps T E A) (s : Optional T) (h : s.WF)
    (args : A) (e : E) (herr : ops.construct args = .error e) :
    (s.Emplace ops args).out = .throw (.fromT e) ∧
    (s.Emplace ops args).state.HasValue = false ∧
    (s.Emplace ops args).state = ctor_default ∧
    (s.Emplace ops args).log
      = (if s.HasValue then [⟨.destroy, false⟩] else []) ++ [⟨.construct, true⟩] ∧
    invocations .destroy (s.Emplace ops args).log = (if s.HasValue then 1 else 0) := by
  rw [Emplace_of_WF h, herr]
  cases hi : s.is_initialized_ <;> simp [HasValue, ctor_default, invocations, hi]

/-- Witness of C15: `Emplace` with a throwing constructor on a slot holding 3
destroys 3 once and leaves the slot empty. -/
theorem Emplace_failure_leaves_empty_witness :
    ({ data_ := some 3, is_initialized_ := true } : Optional Int).WF ∧
    (Emplace failingOps { data_ := some 3, is_initialized_ := true } 9).state = ctor_default ∧
    (Emplace failingOps { data_ := some 3, is_initialized_ := true } 9).log
      = [⟨.destroy, false⟩, ⟨.construct, true⟩] :=
  ⟨by decide,
    (Emplace_failure_leaves_empty failingOps { data_ := some 3, is_initialized_ := true }
      (by decide) 9 () rfl).2.2.1,
    (Emplace_failure_leaves_empty failingOps { data_ := some 3, is_initialized_ := true }
      (by decide) 9 () rfl).2.2.2.1⟩

/-- C16, as stated, fails: `T`'s move constructor throws on the value 7, yet
the move-construction from a slot holding 7 and the move-assignment of that
slot to an empty one do not throw that exception to the caller: both are
`noexcept` and the program terminates. -/
theorem noexcept_move_does_not_pass_through :
    (failingOps.moveConstruct 7).1 = .error () ∧
    (ctor_move failingOps { data_ := some 7, is_initialized_ := true }).out = .terminate ∧
    (ctor_move failingOps { data_ := some 7, is_initialized_ := true }).out
      ≠ .throw (.fromT ()) ∧
    (Mem.assign_move failingOps
      (fun a => if a = 1 then { data_ := some 7, is_initialized_ := true }
        else { data_ := none, is_initialized_ := false }) 0 1).out = .terminate ∧
    (Mem.assign_move failingOps
      (fun a => if a = 1 then { data_ := some 7, is_initialized_ := true }
        else { data_ := none, is_initialized_ := false }) 0 1).out ≠ .throw (.fromT ()) :=
  ⟨rfl, by decide, by decide, by decide, by decide⟩

/-- C16, amended: when the member function of `T` that an operation runs
throws `e`, the value constructors, the copy-construction from a slot,
`Emplace`, the two assignments from a value and the copy-assignment from a
slot throw `e` itself; the move-construction and the move-assignment from a
slot, which are `noexcept`, terminate the program instead. -/
theorem T_failure_passes_through_or_terminates (ops : TOps T E A) (e : E)
    (s : Optional T) (hs : s.WF) (v : T) (args : A)
    (m : Mem T) (this rhs : Nat) (hne : this ≠ rhs) (hT : (m this).WF)
    (src : T) (hR : m rhs = { data_ := some src, is_initialized_ := true }) :
    (ops.copyConstruct v = .error e → (ctor_copy_value ops v).out = .throw (.fromT e)) ∧
    ((ops.moveConstruct v).1 = .error e → (ctor_move_value ops v).out = .throw (.fromT e)) ∧
    (ops.copyConstruct src = .error e → (ctor_copy ops (m rhs)).out = .throw (.fromT e)) ∧
    (ops.construct args = .error e → (s.Emplace ops args).out = .throw (.fromT e)) ∧
    (s.HasValue = false → ops.copyConstruct v = .error e →
      (s.assign_copy_value ops v).out = .throw (.fromT e)) ∧
    (∀ cur, s.data_ = some cur → (ops.copyAssign cur v).2 = some e →
      (s.assign_copy_value ops v).out = .throw (.fromT e)) ∧
    (s.HasValue = false → (ops.moveConstruct v).1 = .error e →
      (s.assign_move_value ops v).out = .throw (.fromT e)) ∧
    (∀ cur, s.data_ = some cur → (ops.moveAssign cur v).2.2 = some e →
      (s.assign_move_value ops v).out = .throw (.fromT e)) ∧
    ((m this).HasValue = false → ops.copyConstruct src = .error e →
      (Mem.assign_copy ops m this rhs).out = .throw (.fromT e)) ∧
    (∀ cur, (m this).data_ = some cur → (ops.copyAssign cur src).2 = some e →
      (Mem.assign_copy ops m this rhs).out = .throw (.fromT e)) ∧
    ((ops.moveConstruct src).1 = .error e → (ctor_move ops (m rhs)).out = .terminate) ∧
    ((m this).HasValue = false → (ops.moveConstruct src).1 = .error e →
      (Mem.assign_move ops m this rhs).out = .terminate) ∧
    (∀ cur, (m this).data_ = some cur → (ops.moveAssign cur src).2.2 = some e →
      (Mem.assign_move ops m this rhs).out = .terminate) := by
  have occupied : ∀ {o : Optional T} {cur : T}, o.WF → o.data_ = some cur →
      o.is_initialized_ = true := by
    intro o cur ho hd
    unfold WF at ho
    rw [ho, hd]
    rfl
  refine ⟨?_, ?_, ?_, ?_, ?_, ?_, ?_, ?_, ?_, ?_, ?_, ?_, ?_⟩
  · intro h
    simp [ctor_copy_value, h]
  · intro h
    cases hm : ops.moveConstruct v with
    | mk r x =>
      rw [hm] at h
      simp only at h
      subst h
      simp [ctor_move_value, hm]
  · intro h
    simp [ctor_copy, hR, h]
  · intro h
    rw [Emplace_of_WF hs, h]
  · intro hi h
    have hi' : s.is_initialized_ = false := hi
    simp [assign_copy_value, hi', h]
  · intro cur hd h
    have hi := occupied hs hd
    cases hm : ops.copyAssign cur v with
    | mk t err =>
      rw [hm] at h
      simp only at h
      subst h
      simp [assign_copy_value, hi, hd, hm]
  · intro hi h
    have hi' : s.is_initialized_ = false := hi
    cases hm : ops.moveConstruct v with
    | mk r x =>
      rw [hm] at h
      simp only at h
      subst h
      simp [assign_move_value, hi', hm]
  · intro cur hd h
    have hi := occupied hs hd
    cases hm : ops.moveAssign cur v with
    | mk t rest =>
      cases rest with
      | mk x err =>
        rw [hm] at h
        simp only at h
        subst h
        simp [assign_move_value, hi, hd, hm]
  · intro hi h
    have hi' : (m this).is_initialized_ = false := hi
    simp [Mem.assign_copy, hne, hR, hi', h]
  · intro cur hd h
    have hi := occupied hT hd
    cases hm : ops.copyAssign cur src with
    | mk t err =>
      rw [hm] at h
      simp only at h
      subst h
      simp [Mem.assign_copy, hne, hR, hi, hd, hm]
  · intro h
    cases hm : ops.moveConstruct src with
    | mk r x =>
      rw [hm] at h
      simp only at h
      subst h
      simp [ctor_move, hR, hm]
  · intro hi h
    have hi' : (m this).is_initialized_ = false := hi
    cases hm : ops.moveConstruct src with
    | mk r x =>
      rw [hm] at h
      simp only at h
      subst h
      simp [Mem.assign_move, hne, hR, hi', hm]
  · intro cur hd h
    have hi := occupied hT hd
    cases hm : ops.moveAssign cur src with
    | mk t rest =>
      cases rest with
      | mk x err =>
        rw [hm] at h
        simp only at h
        subst h
        simp [Mem.assign_move, hne, hR, hi, hd, hm]

/-- Witness of the amended C16 at the `T` whose operations all throw: the
copy-assignment of a slot holding 7 to a slot holding 3 throws `T`'s
exception, the move-assignment terminates. -/
theorem T_failure_passes_through_or_terminates_witness :
    (Mem.assign_copy failingOps
      (fun a => if a = 1 then { data_ := some 7, is_initialized_ := true }
        else { data_ := some 3, is_initialized_ := true }) 0 1).out = .throw (.fromT ()) ∧
    (Mem.assign_move failingOps
      (fun a => if a = 1 then { data_ := some 7, is_initialized_ := true }
        else { data_ := some 3, is_initialized_ := true }) 0 1).out = .terminate :=
  let m : Mem Int := fun a =>
    if a = 1 then { data_ := some 7, is_initialized_ := true }
    else { data_ := some 3, is_initialized_ := true }
  let h := T_failure_passes_through_or_terminates failingOps ()
    { data_ := some 3, is_initialized_ := true } (by decide) 5 9 m 0 1 (by decide)
    (by decide) 7 rfl
  ⟨h.2.2.2.2.2.2.2.2.2.1 3 rfl rfl, h.2.2.2.2.2.2.2.2.2.2.2.2 3 rfl rfl⟩

/-! ## Unchecked access -/

/-- C17: on every occupied slot the three forms of `operator*` and the two
forms of `operator->` give the contained value, the same one the three forms
of `Value()` return, so none of them throws `BadOptionalAccess`; they are
functions of the slot alone and write no member, so `HasValue()` stays
true. -/
theorem unchecked_access_agrees_with_Value (s : Optional T) (h : s.WF)
    (hocc : s.HasValue = true) :
    ∃ v, s.data_ = some v ∧
      (s.deref : Outcome E T) = .ret v ∧
      (s.deref_const : Outcome E T) = .ret v ∧
      (s.deref_rvalue : Outcome E T) = .ret v ∧
      (s.arrow : Outcome E T) = .ret v ∧
      (s.arrow_const : Outcome E T) = .ret v ∧
      (s.deref : Outcome E T) = s.Value ∧
      (s.deref_const : Outcome E T) = s.Value_const ∧
      (s.deref_rvalue : Outcome E T) = s.Value_rvalue ∧
      (s.arrow : Outcome E T) = s.Value ∧
      (s.arrow_const : Outcome E T) = s.Value_const ∧
      (s.deref : Outcome E T) ≠ .throw .BadOptionalAccess ∧
      (s.deref_const : Outcome E T) ≠ .throw .BadOptionalAccess ∧
      (s.deref_rvalue : Outcome E T) ≠ .throw .BadOptionalAccess ∧
      (s.arrow : Outcome E T) ≠ .throw .BadOptionalAccess ∧
      (s.arrow_const : Outcome E T) ≠ .throw .BadOptionalAccess := by
  have hi : s.is_initialized_ = true := hocc
  obtain ⟨v, hv⟩ := h.data_of_initialized hi
  refine ⟨v, hv, ?_⟩
  simp [deref, deref_const, deref_rvalue, arrow, arrow_const, Value, Value_const,
    Value_rvalue, hi, hv]

/-- Witness of C17 at the `Optional<int>` holding 7. -/
theorem unchecked_access_agrees_with_Value_witness :
    ({ data_ := some 7, is_initialized_ := true } : Optional Int).WF ∧
    ∃ v, ({ data_ := some 7, is_initialized_ := true } : Optional Int).data_ = some v ∧
      (({ data_ := some 7, is_initialized_ := true } : Optional Int).deref
        : Outcome Empty Int) = .ret v :=
  ⟨by decide,
    match @unchecked_access_agrees_with_Value Int Empty
      { data_ := some 7, is_initialized_ := true } (by decide) rfl with
    | ⟨v, hd, hderef, _⟩ => ⟨v, hd, hderef⟩⟩

/-! ## Failed copy-assignments -/

/-- C18: when `T`'s copy operation throws `e` in the copy-assignment from a
value `v` (on the slot `s`) or from an occupied slot holding `src` (on the slot
at `this`), the call throws `e` and the target's flag is as before: an empty
target whose copy construction failed is still empty, an occupied target
whose copy assignment failed is still occupied. -/
theorem failed_copy_assignment_keeps_flag (ops : TOps T E A) (e : E)
    (s : Optional T) (hs : s.WF) (v : T)
    (m : Mem T) (this rhs : Nat) (hne : this ≠ rhs) (hT : (m this).WF)
    (src : T) (hR : m rhs = { data_ := some src, is_initialized_ := true }) :
    (s.HasValue = false → ops.copyConstruct v = .error e →
      (s.assign_copy_value ops v).out = .throw (.fromT e) ∧
      (s.assign_copy_value ops v).state.HasValue = false) ∧
    (∀ cur, s.data_ = some cur → (ops.copyAssign cur v).2 = some e →
      (s.assign_copy_value ops v).out = .throw (.fromT e) ∧
      (s.assign_copy_value ops v).state.HasValue = true) ∧
    ((m this).HasValue = false → ops.copyConstruct src = .error e →
      (Mem.assign_copy ops m this rhs).out = .throw (.fromT e) ∧
      ((Mem.assign_copy ops m this rhs).state this).HasValue = false) ∧
    (∀ cur, (m this).data_ = some cur → (ops.copyAssign cur src).2 = some e →
      (Mem.assign_copy ops m this rhs).out = .throw (.fromT e) ∧
      ((Mem.assign_copy ops m this rhs).state this).HasValue = true) := by
  have occupied : ∀ {o : Optional T} {cur : T}, o.WF → o.data_ = some cur →
      o.is_initialized_ = true := by
    intro o cur ho hd
    unfold WF at ho
    rw [ho, hd]
    rfl
  refine ⟨?_, ?_, ?_, ?_⟩
  · intro hi h
    have hi' : s.is_initialized_ = false := hi
    simp [assign_copy_value, hi', h, HasValue]
  · intro cur hd h
    have hi := occupied hs hd
    cases hm : ops.copyAssign cur v with
    | mk t err =>
      rw [hm] at h
      simp only at h
      subst h
      simp [assign_copy_value, hi, hd, hm, HasValue]
  · intro hi h
    have hi' : (m this).is_initialized_ = false := hi
    simp [Mem.assign_copy, hne, hR, hi', h, HasValue]
  · intro cur hd h
    have hi := occupied hT hd
    cases hm : ops.copyAssign cur src with
    | mk t err =>
      rw [hm] at h
      simp only at h
      subst h
      simp [Mem.assign_copy, hne, hR, hi, hd, hm, HasValue]

/-- Witness of C18 at the `T` whose operations all throw: the failed
assignment of 5 to an empty slot leaves it empty, the failed copy-assignment
of a slot holding 7 to a slot holding 3 leaves the target occupied. -/
theorem failed_copy_assignment_keeps_flag_witness :
    (assign_copy_value failingOps { data_ := none, is_initialized_ := false } 5).state.HasValue
      = false ∧
    ((Mem.assign_copy failingOps
      (fun a => if a = 1 then { data_ := some 7, is_initialized_ := true }
        else { data_ := some 3, is_initialized_ := true }) 0 1).state 0).HasValue = true :=
  let m : Mem Int := fun a =>
    if a = 1 then { data_ := some 7, is_initialized_ := true }
    else { data_ := some 3, is_initialized_ := true }
  let h := failed_copy_assignment_keeps_flag failingOps ()
    { data_ := none, is_initialized_ := false } (by decide) 5 m 0 1 (by decide)
    (by decide) 7 rfl
  ⟨(h.1 rfl rfl).2, (h.2.2.2 3 rfl rfl).2⟩

/-! ## Copy-assignment against copy-construction -/

/-- C19, as stated, fails: the copy assignment of this `T` yields a value
equal to its argument, yet after `A = B` with `A` holding 0 and `B` holding 5
the slot `A` holds 5, while a fresh slot copy-constructed from `B` holds what
`T`'s copy constructor made of 5, which is 6. -/
theorem copy_assign_differs_from_copy_construct :
    (∀ cur v : Int, generationOps.copyAssign cur v = (v, none)) ∧
    (Mem.assign_copy generationOps
      (fun a => if a = 1 then { data_ := some 5, is_initialized_ := true }
        else { data_ := some 0, is_initialized_ := true }) 0 1).out = .ret () ∧
    (Mem.assign_copy generationOps
      (fun a => if a = 1 then { data_ := some 5, is_initialized_ := true }
        else { data_ := some 0, is_initialized_ := true }) 0 1).state 0
      = { data_ := some 5, is_initialized_ := true } ∧
    (ctor_copy generationOps { data_ := some 5, is_initialized_ := true }).out
      = .ret { data_ := some 6, is_initialized_ := true } ∧
    (ctor_copy generationOps { data_ := some 5, is_initialized_ := true }).out
      ≠ .ret ((Mem.assign_copy generationOps
          (fun a => if a = 1 then { data_ := some 5, is_initialized_ := true }
            else { data_ := some 0, is_initialized_ := true }) 0 1).state 0) :=
  ⟨fun _ _ => rfl, by decide, by decide, by decide, by decide⟩

/-- C19, amended: when `T`'s copy constructor and `T`'s copy assignment both
yield a value equal to their argument, then for every target `A` (at `this`)
and every source `B` (at `rhs`, the same slot or another) the copy-assignment
`A = B` returns and leaves `A` equal, flag and contained value, to the slot
that copy-construction from `B` returns. -/
theorem copy_assign_agrees_with_copy_construct (ops : TOps T E A) (m : Mem T)
    (this rhs : Nat) (hA : (m this).WF) (hB : (m rhs).WF)
    (hcopy : ∀ v, (m rhs).data_ = some v → ops.copyConstruct v = .ok v)
    (hassign : ∀ cur v, (m rhs).data_ = some v → ops.copyAssign cur v = (v, none)) :
    (Mem.assign_copy ops m this rhs).out = .ret () ∧
    (ctor_copy ops (m rhs)).out = .ret ((Mem.assign_copy ops m this rhs).state this) ∧
    ((Mem.assign_copy ops m this rhs).state this).HasValue = (m rhs).HasValue ∧
    ((Mem.assign_copy ops m this rhs).state this).data_ = (m rhs).data_ := by
  have hfresh : (ctor_copy ops (m rhs)).out = .ret (m rhs) := by
    cases hi : (m rhs).is_initialized_ with
    | true =>
      obtain ⟨v, hv⟩ := hB.eq_of_initialized hi
      have hc := hcopy v (by rw [hv])
      rw [hv]
      simp [ctor_copy, hc]
    | false =>
      have hv := hB.eq_of_not_initialized hi
      rw [hv]
      simp [ctor_copy, ctor_default]
  by_cases hne : this = rhs
  · subst hne
    simp [Mem.assign_copy, hfresh]
  · rw [hfresh]
    cases hi : (m rhs).is_initialized_ with
    | true =>
      obtain ⟨v, hv⟩ := hB.eq_of_initialized hi
      have hc := hcopy v (by rw [hv])
      have ha := fun cur => hassign cur v (by rw [hv])
      cases hj : (m this).is_initialized_ with
      | true =>
        obtain ⟨cur, hcur⟩ := hA.eq_of_initialized hj
        simp [Mem.assign_copy, hne, hv, hcur, ha, HasValue]
      | false =>
        simp [Mem.assign_copy, hne, hv, hj, hc, HasValue]
    | false =>
      have hv := hB.eq_of_not_initialized hi
      obtain ⟨ho, hs, -⟩ := @Reset_of_WF T E (m this) hA
      simp [Mem.assign_copy, hne, hi, ho, hs, hv, HasValue, ctor_default]

/-- Witness of the amended C19 in a memory of `Optional<int>`: after
`slot0 = slot1`, with slot 1 holding 7, slot 0 is the slot copy-construction
from slot 1 returns. -/
theorem copy_assign_agrees_with_copy_construct_witness :
    (ctor_copy intOps { data_ := some 7, is_initialized_ := true }).out
      = .ret ((Mem.assign_copy intOps
          (fun a => if a = 1 then { data_ := some 7, is_initialized_ := true }
            else { data_ := some 3, is_initialized_ := true }) 0 1).state 0) :=
  (copy_assign_agrees_with_copy_construct intOps
    (fun a => if a = 1 then { data_ := some 7, is_initialized_ := true }
      else { data_ := some 3, is_initialized_ := true }) 0 1
    (by decide) (by decide) (fun _ _ => rfl) (fun _ _ _ => rfl)).2.1

/-! ## The lifetime of the contained value -/

/-- C14: take a slot `s` returned by any constructor and any sequence of uses
of it (`Reset`, `Emplace`, the four assignments, `HasValue`, `Value`, as target
or as the source of a copy or a move), whether or not `T`'s operations throw.
After each step (after the first `n` calls, for every `n`) the slot is well
formed and the number of `T` objects constructed in its storage is the number
destroyed there plus 1 when `HasValue()` is true, plus 0 otherwise.  The
destructor of the slot then runs `T`'s destructor once when the slot is
occupied and not at all when it is empty, so that in the end as many `T`
objects were destroyed as were constructed. -/
theorem lifetime_balance (ops : TOps T E A) (c : Ctor T) (s : Optional T)
    (hmake : (c.make ops).out = .ret s) (calls : List (Call T A)) (n : Nat) :
    (run ops s (calls.take n)).state.WF ∧
    constructed ((c.make ops).log ++ (run ops s (calls.take n)).log)
      = destroyed ((c.make ops).log ++ (run ops s (calls.take n)).log)
        + (if (run ops s (calls.take n)).state.HasValue then 1 else 0) ∧
    ((run ops s (calls.take n)).state.dtor : Run (Optional T) E Unit).out = .ret () ∧
    ((run ops s (calls.take n)).state.dtor : Run (Optional T) E Unit).log
      = (if (run ops s (calls.take n)).state.HasValue then [⟨.destroy, false⟩] else []) ∧
    invocations .destroy
        ((run ops s (calls.take n)).state.dtor : Run (Optional T) E Unit).log
      = (if (run ops s (calls.take n)).state.HasValue then 1 else 0) ∧
    constructed ((c.make ops).log ++ (run ops s (calls.take n)).log
        ++ ((run ops s (calls.take n)).state.dtor : Run (Optional T) E Unit).log)
      = destroyed ((c.make ops).log ++ (run ops s (calls.take n)).log
        ++ ((run ops s (calls.take n)).state.dtor : Run (Optional T) E Unit).log) := by
  obtain ⟨hs, hb⟩ := Ctor.make_balance ops c s hmake
  obtain ⟨hw, hr⟩ := run_balance ops (calls.take n) s hs
  obtain ⟨ho, -, hl⟩ := @Reset_of_WF T E (run ops s (calls.take n)).state hw
  have hcount : (run ops s (calls.take n)).state.count
      = (if (run ops s (calls.take n)).state.HasValue then 1 else 0) := rfl
  have hd : ((run ops s (calls.take n)).state.dtor : Run (Optional T) E Unit).log
      = (if (run ops s (calls.take n)).state.HasValue then [⟨.destroy, false⟩] else []) := hl
  have hbal : constructed ((c.make ops).log ++ (run ops s (calls.take n)).log)
      = destroyed ((c.make ops).log ++ (run ops s (calls.take n)).log)
        + (if (run ops s (calls.take n)).state.HasValue then 1 else 0) := by
    rw [constructed_append, destroyed_append, ← hcount]
    omega
  refine ⟨hw, hbal, ho, hd, ?_, ?_⟩
  · rw [hd]
    cases (run ops s (calls.take n)).state.HasValue <;> simp [invocations]
  · rw [constructed_append, destroyed_append, hbal, hd]
    cases (run ops s (calls.take n)).state.HasValue <;>
      simp [constructed, destroyed, invocations, TEvent.constructs]

/-- Witness of C14 at `T = int`: the slot constructed from 7, then
`Emplace(9)`, `Reset()` and the assignment of 4; after the first two calls
the slot is empty and two `int`s were constructed and two destroyed. -/
theorem lifetime_balance_witness :
    (Ctor.make intOps (.copy_value 7)).out
      = .ret { data_ := some 7, is_initialized_ := true } ∧
    constructed ((Ctor.make intOps (.copy_value 7)).log
        ++ (run intOps { data_ := some 7, is_initialized_ := true }
          (List.take 2 [Call.Emplace 9, Call.Reset, Call.assign_copy_value 4])).log)
      = destroyed ((Ctor.make intOps (.copy_value 7)).log
        ++ (run intOps { data_ := some 7, is_initialized_ := true }
          (List.take 2 [Call.Emplace 9, Call.Reset, Call.assign_copy_value 4])).log)
        + (if (run intOps { data_ := some 7, is_initialized_ := true }
          (List.take 2 [Call.Emplace 9, Call.Reset, Call.assign_copy_value 4])).state.HasValue
          then 1 else 0) ∧
    constructed ((Ctor.make intOps (.copy_value 7)).log
        ++ (run intOps { data_ := some 7, is_initialized_ := true }
          (List.take 2 [Call.Emplace 9, Call.Reset, Call.assign_copy_value 4])).log) = 2 :=
  ⟨rfl,
    (lifetime_balance intOps (.copy_value 7) { data_ := some 7, is_initialized_ := true } rfl
      [Call.Emplace 9, Call.Reset, Call.assign_copy_value 4] 2).2.1,
    by decide⟩

end Claims

end CppOptional
